import Mathlib

/-!
Verification of the trello-clone board logic.

This file gives a shallow embedding of the two files carrying the core logic
of the repository — `src/factories/EntityFactory.ts` and
`src/stores/boardStore.ts` — and proves or refutes the frozen claims about
them.

Modelling conventions:
* JavaScript objects become Lean structures; mutation becomes explicit
  state passing (every store action takes the current board and returns the
  new board).
* `$fetch` results are passed in as explicit `Except` parameters; the calls
  an action issues to the gateway are returned as an explicit `calls` list,
  and the control-flow order of an `async` action (request issued, await
  settles, local mutation) is recorded as an `events` list.
* JS `x || d` on optional strings/numbers (falsy: `undefined`, `null`, `""`,
  `0`) is `jsOrS` / `jsOrN`; JS `x ?? d` is `Option.getD`.
* `Date.now()`/`Math.random()` entropy consumed by `generateId` is abstracted
  as a `Nat` draw from a fresh-id supply, threaded explicitly; `new Date()`
  becomes an explicit `now : Int` (epoch milliseconds) parameter.
* JS `Date` values are `Option Int` (epoch milliseconds, `none` = Invalid
  Date); `new Date(string)` is `parseDate`, implemented for the UTC ISO
  format `YYYY-MM-DDTHH:MM:SSZ` used by the repository's timestamps
  (restricted to years from 1970 on).
-/

/-- JS `Date` value: epoch milliseconds, `none` models an Invalid Date. -/
abbrev JDate := Option Int

/-- JS `s.trim()`: strip leading and trailing whitespace (implemented over
the character list so that it reduces in the kernel). -/
def jsTrim (s : String) : String :=
  String.mk (((s.data.dropWhile Char.isWhitespace).reverse.dropWhile Char.isWhitespace).reverse)

/-- JS `a || d` for an optional string: `undefined`, `null` and `""` are falsy. -/
def jsOrS : Option String → String → String
  | none, d => d
  | some s, d => if s = "" then d else s

/-- JS `a || d` for an optional number: `undefined`, `null` and `0` are falsy. -/
def jsOrN : Option Int → Int → Int
  | none, d => d
  | some v, d => if v = 0 then d else v

/-- Gregorian leap-year rule. -/
def isLeap (y : Nat) : Bool := (y % 4 == 0 && y % 100 != 0) || y % 400 == 0

/-- Number of days of month `m` (1-based) in year `y`. -/
def daysInMonth (y m : Nat) : Nat :=
  if m = 1 then 31 else if m = 2 then (if isLeap y then 29 else 28)
  else if m = 3 then 31 else if m = 4 then 30 else if m = 5 then 31
  else if m = 6 then 30 else if m = 7 then 31 else if m = 8 then 31
  else if m = 9 then 30 else if m = 10 then 31 else if m = 11 then 30 else 31

/-- Days from 1970-01-01 to `y`-01-01. -/
def daysBeforeYear (y : Nat) : Nat :=
  ((List.range (y - 1970)).map (fun i => if isLeap (1970 + i) then 366 else 365)).sum

/-- Days from `y`-01-01 to `y`-`m`-01. -/
def daysBeforeMonth (y m : Nat) : Nat :=
  ((List.range (m - 1)).map (fun i => daysInMonth y (i + 1))).sum

/-- Epoch milliseconds of the UTC instant `y-m-d hh:mi:ss`. -/
def epochMillis (y m d hh mi ss : Nat) : Nat :=
  ((((daysBeforeYear y + daysBeforeMonth y m + (d - 1)) * 24 + hh) * 60 + mi) * 60 + ss) * 1000

/-- Two decimal digit characters to a number. -/
def digit2 (a b : Char) : Option Nat :=
  if a.isDigit && b.isDigit then some ((a.toNat - 48) * 10 + (b.toNat - 48)) else none

/-- JS `new Date(s)` for the UTC ISO strings this repository passes around
(`YYYY-MM-DDTHH:MM:SSZ`, year 1970 or later); any other shape yields an
Invalid Date (`none`). -/
def parseDate (s : String) : JDate :=
  match s.data with
  | [y1, y2, y3, y4, '-', mo1, mo2, '-', d1, d2, 'T',
     h1, h2, ':', n1, n2, ':', s1, s2, 'Z'] =>
      match digit2 y1 y2, digit2 y3 y4, digit2 mo1 mo2, digit2 d1 d2,
            digit2 h1 h2, digit2 n1 n2, digit2 s1 s2 with
      | some yh, some yl, some mo, some dd, some hh, some mi, some ss =>
          let y := yh * 100 + yl
          if 1970 ≤ y ∧ 1 ≤ mo ∧ mo ≤ 12 ∧ 1 ≤ dd ∧ dd ≤ daysInMonth y mo
             ∧ hh < 24 ∧ mi < 60 ∧ ss < 60 then
            some ((epochMillis y mo dd hh mi ss : Int))
          else none
      | _, _, _, _, _, _, _ => none
  | _ => none

/-- Decimal string of a natural number (digit characters, most significant
first). Used by `EntityFactory.generateId` below. -/
def natDecimal (n : Nat) : String := String.mk ((Nat.digits 10 n).reverse.map Nat.digitChar)

namespace EntityFactory

/-- `Card` from `src/types/api` as consumed by `EntityFactory`. -/
structure Card where
  id : String
  title : String
  description : String
  position : Int
  listId : String
  createdAt : JDate
  updatedAt : JDate
deriving Repr, DecidableEq

/-- `List` from `src/types/api` (named `ListE` because `List` is taken in Lean). -/
structure ListE where
  id : String
  title : String
  position : Int
  cards : List Card
  createdAt : JDate
  updatedAt : JDate
deriving Repr, DecidableEq

/-- `Board` from `src/types/api`. -/
structure BoardE where
  id : String
  title : String
  description : String
  lists : List ListE
  createdAt : JDate
  updatedAt : JDate
deriving Repr, DecidableEq

/-- `CreateCardParams` (optional fields become `Option`). -/
structure CreateCardParams where
  title : String
  listId : String
  description : Option String := none
  position : Option Int := none
deriving Repr, DecidableEq

/-- `CreateListParams`. -/
structure CreateListParams where
  title : String
  position : Option Int := none
deriving Repr, DecidableEq

/-- `CreateBoardParams`. -/
structure CreateBoardParams where
  title : String
  description : Option String := none
deriving Repr, DecidableEq

/-- `EntityFactory.generateId(prefix)`: the source builds
`` `${prefix}_${timestamp}_${randomPart}` `` from `Date.now()` and
`Math.random()`; the entropy pair is abstracted as one draw `n` from a
fresh-id supply, rendered in decimal. -/
def generateId (pfx : String) (n : Nat) : String := pfx ++ "_" ++ natDecimal n

/-- `EntityFactory.createCard`: trims the title, defaults description to `""`
(`||`) and position to `0` (`??`), stamps a fresh id and `new Date()`
timestamps. `n` is the fresh-id draw, `now` the current instant. -/
def createCard (params : CreateCardParams) (n : Nat) (now : Int) : Card :=
  { id := generateId "card" n
    title := jsTrim params.title
    description := jsOrS params.description ""
    position := params.position.getD 0
    listId := params.listId
    createdAt := some now
    updatedAt := some now }

/-- `EntityFactory.createList`. -/
def createList (params : CreateListParams) (n : Nat) (now : Int) : ListE :=
  { id := generateId "list" n
    title := jsTrim params.title
    position := params.position.getD 0
    cards := []
    createdAt := some now
    updatedAt := some now }

/-- `EntityFactory.createBoard`. -/
def createBoard (params : CreateBoardParams) (n : Nat) (now : Int) : BoardE :=
  { id := generateId "board" n
    title := jsTrim params.title
    description := jsOrS params.description ""
    lists := []
    createdAt := some now
    updatedAt := some now }

/-- Raw remote card record (`any`-typed in the source): snake_case names,
string timestamps, possibly-absent optional fields. -/
structure ApiCard where
  id : String
  title : Option String := none
  description : Option String := none
  position : Option Int := none
  list_id : String
  created_at : String
  updated_at : Option String := none
deriving Repr, DecidableEq

/-- Raw remote list record. -/
structure ApiList where
  id : String
  title : Option String := none
  position : Option Int := none
  cards : Option (List ApiCard) := none
  created_at : String
  updated_at : Option String := none
deriving Repr, DecidableEq

/-- `EntityFactory.createCardFromApi`: `list_id → listId`, `|| ''` / `|| 0`
defaults, string timestamps parsed with `new Date`, `updated_at` falling back
to `created_at` via `||`. -/
def createCardFromApi (apiData : ApiCard) : Card :=
  { id := apiData.id
    title := jsOrS apiData.title ""
    description := jsOrS apiData.description ""
    position := jsOrN apiData.position 0
    listId := apiData.list_id
    createdAt := parseDate apiData.created_at
    updatedAt := parseDate (jsOrS apiData.updated_at apiData.created_at) }

/-- `EntityFactory.createListFromApi`; nested cards are normalized
recursively (`apiData.cards ? apiData.cards.map(this.createCardFromApi) : []`;
note an empty array is truthy in JS, so `Option.getD []` is exact). -/
def createListFromApi (apiData : ApiList) : ListE :=
  { id := apiData.id
    title := jsOrS apiData.title ""
    position := jsOrN apiData.position 0
    cards := (apiData.cards.getD []).map createCardFromApi
    createdAt := parseDate apiData.created_at
    updatedAt := parseDate (jsOrS apiData.updated_at apiData.created_at) }

/-- `Partial<CreateCardParams>` overrides of `cloneCard`. -/
structure CardOverrides where
  title : Option String := none
  listId : Option String := none
  description : Option String := none
  position : Option Int := none
deriving Repr, DecidableEq

/-- `Partial<CreateListParams>` overrides of `cloneList`. -/
structure ListOverrides where
  title : Option String := none
  position : Option Int := none
deriving Repr, DecidableEq

/-- `EntityFactory.cloneCard`: `||` fallbacks for title/listId/description,
`??` for position, then a plain `createCard` (fresh id and timestamps). -/
def cloneCard (card : Card) (overrides : CardOverrides) (n : Nat) (now : Int) : Card :=
  createCard
    { title := jsOrS overrides.title card.title
      listId := jsOrS overrides.listId card.listId
      description := some (jsOrS overrides.description card.description)
      position := some (overrides.position.getD card.position) }
    n now

/-- The `list.cards.map(card => this.cloneCard(card, { listId: newList.id }))`
step of `cloneList`, with the fresh-id supply threaded left to right (each
clone consumes one draw). -/
def cloneCards (cards : List Card) (newListId : String) (n : Nat) (now : Int) : List Card :=
  match cards with
  | [] => []
  | c :: rest => cloneCard c { listId := some newListId } n now :: cloneCards rest newListId (n + 1) now

/-- `EntityFactory.cloneList`: builds the new list (default title
`` `${list.title} (副本)` ``), then deep-clones every card, re-pointing each
clone's `listId` at the new list's id. -/
def cloneList (list : ListE) (overrides : ListOverrides) (n : Nat) (now : Int) : ListE :=
  let newList := createList
    { title := jsOrS overrides.title (list.title ++ " (副本)")
      position := some (overrides.position.getD list.position) } n now
  { newList with cards := cloneCards list.cards newList.id (n + 1) now }

/-- `Partial<Card>` as consumed by `validateCard` (only the three checked
fields matter; `undefined` and `null` both become `none`). -/
structure PartialCard where
  title : Option String := none
  listId : Option String := none
  position : Option Int := none
deriving Repr, DecidableEq

/-- `Partial<List>` as consumed by `validateList`. -/
structure PartialList where
  title : Option String := none
  position : Option Int := none
deriving Repr, DecidableEq

/-- JS `!x?.trim()` / `!x` on an optional string. -/
def jsFalsyS : Option String → Bool
  | none => true
  | some s => s == ""

/-- JS `typeof p !== 'number' || p < 0`. -/
def jsPosBad : Option Int → Bool
  | none => true
  | some p => decide (p < 0)

/-- `EntityFactory.validateCard`: pushes one message per violated constraint,
in source order, never stopping at the first. -/
def validateCard (card : PartialCard) : List String :=
  (if jsFalsyS (card.title.map jsTrim) then ["卡片標題不能為空"] else []) ++
  (if jsFalsyS card.listId then ["卡片必須屬於一個列表"] else []) ++
  (if jsPosBad card.position then ["卡片位置必須是非負數"] else [])

/-- `EntityFactory.validateList`. -/
def validateList (list : PartialList) : List String :=
  (if jsFalsyS (list.title.map jsTrim) then ["列表標題不能為空"] else []) ++
  (if jsPosBad list.position then ["列表位置必須是非負數"] else [])

end EntityFactory

namespace BoardStore

/-- `CardUI` as held in the store's local state (the store's board mapping
keeps exactly these four fields; local cards carry no `listId`). -/
structure CardUI where
  id : String
  title : String
  description : String
  position : Int
deriving Repr, DecidableEq

/-- `ListUI` as held in the store's local state. -/
structure ListUI where
  id : String
  title : String
  cards : List CardUI
deriving Repr, DecidableEq

/-- `BoardUI`: the store's `board` state. -/
structure BoardUI where
  id : String
  title : String
  lists : List ListUI
deriving Repr, DecidableEq

/-- An error thrown by a `$fetch` call. -/
structure GatewayError where
  message : String
deriving Repr, DecidableEq

/-- One request issued to the remote persistence gateway by a store action. -/
inductive GatewayCall where
  | createList (title : String)
  | createCard (title : String) (list_id : String)
  | deleteList (id : String)
  | deleteCard (id : String)
  | putCard (id : String) (list_id : String) (position : Nat)
deriving Repr, DecidableEq

/-- Control-flow points of an `async` create action, in execution order:
the `$fetch` request is issued, the `await` settles (resolves or rejects),
and the local state mutation (if any) runs. -/
inductive StoreEvent where
  | requestIssued
  | requestSettled
  | localMutation
deriving Repr, DecidableEq

/-- Response of `POST /api/lists` (spread into the local list by `addList`). -/
structure ListResp where
  id : String
  title : String
deriving Repr, DecidableEq

/-- Response of `POST /api/cards`; `addCard` reads these fields with `||`
fallbacks, except `position`, which is used as-is. -/
structure CardResp where
  id : Option String := none
  title : Option String := none
  description : Option String := none
  position : Int
deriving Repr, DecidableEq

/-- Result of an optimistic create action (`addList` / `addCard`). -/
structure CreateResult where
  board : BoardUI
  calls : List GatewayCall
  events : List StoreEvent
deriving Repr, DecidableEq

/-- Result of a delete/move action: final local board, gateway calls issued,
the error re-thrown to the caller (if any), and whether the missing-entity
warning was logged. -/
structure ActionResult where
  board : BoardUI
  calls : List GatewayCall
  thrown : Option GatewayError
  warned : Bool
deriving Repr, DecidableEq

/-- `addList(title)`: awaits `POST /api/lists` first; only after the response
arrives is `{...response, cards: []}` pushed onto `board.lists`. A rejected
fetch is caught and logged (not re-thrown), leaving the board unchanged. -/
def addList (board : BoardUI) (title : String) (resp : Except GatewayError ListResp) :
    CreateResult :=
  match resp with
  | .ok r =>
      { board := { board with lists := board.lists ++ [{ id := r.id, title := r.title, cards := [] }] }
        calls := [.createList title]
        events := [.requestIssued, .requestSettled, .localMutation] }
  | .error _ =>
      { board := board
        calls := [.createList title]
        events := [.requestIssued, .requestSettled] }

/-- `removeList(listId)`: warns and returns when no local list has the id
(no gateway call); otherwise awaits `DELETE /api/lists/:id`, splices the list
(and with it all its cards) out on success, and re-throws the error on
failure with local state untouched. -/
def removeList (board : BoardUI) (listId : String) (resp : Except GatewayError Unit) :
    ActionResult :=
  match board.lists.find? (fun l => l.id == listId) with
  | none => { board := board, calls := [], thrown := none, warned := true }
  | some _ =>
      match resp with
      | .error e =>
          { board := board, calls := [.deleteList listId], thrown := some e, warned := false }
      | .ok _ =>
          let index := board.lists.findIdx (fun l => l.id == listId)
          { board := { board with lists := board.lists.eraseIdx index }
            calls := [.deleteList listId]
            thrown := none
            warned := false }

/-- Rebuild of a `lists.find(...)` followed by in-place mutation of the found
list: the first list with the id is replaced by `f` of it, the rest are
untouched; identity when no list matches. -/
def modifyFirstList (lists : List ListUI) (listId : String) (f : ListUI → ListUI) :
    List ListUI :=
  match lists with
  | [] => []
  | l :: rest => if l.id == listId then f l :: rest else l :: modifyFirstList rest listId f

/-- `addCard(listId, title)`: awaits `POST /api/cards` first; on success the
first local list with the id gets `{id: r.id || '', title: r.title || title,
description: r.description || '', position: r.position}` pushed, otherwise
(fetch rejected, or list unknown locally) the board is left unchanged and the
error is only logged. -/
def addCard (board : BoardUI) (listId : String) (title : String)
    (resp : Except GatewayError CardResp) : CreateResult :=
  match resp with
  | .error _ =>
      { board := board
        calls := [.createCard title listId]
        events := [.requestIssued, .requestSettled] }
  | .ok r =>
      if board.lists.any (fun l => l.id == listId) then
        let newCard : CardUI :=
          { id := jsOrS r.id ""
            title := jsOrS r.title title
            description := jsOrS r.description ""
            position := r.position }
        { board := { board with lists :=
            (modifyFirstList board.lists listId (fun l => { l with cards := l.cards ++ [newCard] })) }
          calls := [.createCard title listId]
          events := [.requestIssued, .requestSettled, .localMutation] }
      else
        { board := board
          calls := [.createCard title listId]
          events := [.requestIssued, .requestSettled] }

/-- `removeCard(listId, cardId)`: issues `DELETE /api/cards/:cardId` before
any local lookup; on success the first card with the id in the first list
with the id is spliced out (nothing happens when either is unknown, with no
warning); a rejected fetch is caught and logged — never re-thrown. -/
def removeCard (board : BoardUI) (listId cardId : String)
    (resp : Except GatewayError Unit) : ActionResult :=
  match resp with
  | .error _ =>
      { board := board, calls := [.deleteCard cardId], thrown := none, warned := false }
  | .ok _ =>
      { board := { board with lists :=
          (modifyFirstList board.lists listId (fun l =>
            { l with cards :=
                (match l.cards.findIdx? (fun c => c.id == cardId) with
                 | some i => l.cards.eraseIdx i
                 | none => l.cards) })) }
        calls := [.deleteCard cardId]
        thrown := none
        warned := false }

/-- JS `cards.splice(newIndex, 0, card)` / `cards.push(card)`: insert at the
index, appending when the index is absent or beyond the end. -/
def jsSpliceInsert (cards : List CardUI) (newIndex : Option Nat) (card : CardUI) :
    List CardUI :=
  match newIndex with
  | none => cards ++ [card]
  | some k => if cards.length ≤ k then cards ++ [card] else cards.insertIdx k card

/-- The `list.cards.forEach((cardInList, index) => updatePromises.push($fetch(
PUT /api/cards/:id, {list_id: list.id, position: index})))` loop of
`moveCard`: one position update per card of the list, positions `0, 1, 2, …`
in array order. The new positions are only sent to the gateway — the local
`position` fields are not written. -/
def cardCalls (l : ListUI) : List GatewayCall :=
  l.cards.mapIdx (fun index c => .putCard c.id l.id index)

/-- Position carried by a PUT gateway call (0 for other calls). -/
def putPos : GatewayCall → Nat
  | .putCard _ _ p => p
  | _ => 0

/-- The `list_id` body field of a PUT gateway call (`""` for other calls). -/
def putListId : GatewayCall → String
  | .putCard _ l _ => l
  | _ => ""

/-- The card id a PUT gateway call addresses (`""` for other calls). -/
def putCardId : GatewayCall → String
  | .putCard c _ _ => c
  | _ => ""

/-- `moveCard(fromListId, toListId, cardIndex, newIndex?)`: when both lists
and the card exist locally, splice the card out of the source, splice it into
the destination (`push` when `newIndex` is undefined), then emit one PUT per
card of each affected list (`new Set([fromList, toList])` — one list when the
move stays inside a single list, source first otherwise). The local board is
not rolled back and no error is re-thrown if PUTs fail, so the resulting
board does not depend on the PUT outcomes. When the guard fails the action
silently does nothing (no warning, no gateway call). -/
def moveCard (board : BoardUI) (fromListId toListId : String) (cardIndex : Nat)
    (newIndex : Option Nat) : ActionResult :=
  match board.lists.findIdx? (fun l => l.id == fromListId),
        board.lists.findIdx? (fun l => l.id == toListId) with
  | some i, some j =>
      match board.lists[i]?, board.lists[j]? with
      | some fromList, some toList =>
          match fromList.cards[cardIndex]? with
          | some card =>
              if i = j then
                let newL := { fromList with
                  cards := jsSpliceInsert (fromList.cards.eraseIdx cardIndex) newIndex card }
                { board := { board with lists := board.lists.set i newL }
                  calls := cardCalls newL
                  thrown := none
                  warned := false }
              else
                let newFrom := { fromList with cards := fromList.cards.eraseIdx cardIndex }
                let newTo := { toList with cards := jsSpliceInsert toList.cards newIndex card }
                { board := { board with lists := (board.lists.set i newFrom).set j newTo }
                  calls := cardCalls newFrom ++ cardCalls newTo
                  thrown := none
                  warned := false }
          | none => { board := board, calls := [], thrown := none, warned := false }
      | _, _ => { board := board, calls := [], thrown := none, warned := false }
  | _, _ => { board := board, calls := [], thrown := none, warned := false }

/-- Shared scan of `updateCardTitle` / `updateCardDescription` over one
list's cards: `list.cards.find(c => c.id === cardId)` followed by an
in-place field assignment on the found card; `none` when no card matches. -/
def updateFirstCard (cardId : String) (upd : CardUI → CardUI) :
    List CardUI → Option (List CardUI)
  | [] => none
  | c :: rest =>
      if c.id == cardId then some (upd c :: rest)
      else (updateFirstCard cardId upd rest).map (c :: ·)

/-- The `for (const list of this.board.lists) { ...; break }` loop shared by
`updateCardTitle` / `updateCardDescription`: lists are scanned in order and
the scan stops at the first list containing the card. -/
def updateBoardLists (cardId : String) (upd : CardUI → CardUI) :
    List ListUI → List ListUI
  | [] => []
  | l :: rest =>
      match updateFirstCard cardId upd l.cards with
      | some cards => { l with cards := cards } :: rest
      | none => l :: updateBoardLists cardId upd rest

/-- `updateCardTitle(cardId, newTitle)`: purely local, stores the value
verbatim. -/
def updateCardTitle (board : BoardUI) (cardId newTitle : String) : BoardUI :=
  { board with lists := updateBoardLists cardId (fun card => { card with title := newTitle }) board.lists }

/-- `updateCardDescription(cardId, newDescription)`: purely local, stores the
value verbatim. -/
def updateCardDescription (board : BoardUI) (cardId newDescription : String) : BoardUI :=
  { board with lists := updateBoardLists cardId (fun card => { card with description := newDescription }) board.lists }

/-- The spec's position invariant (its §3.1/§8 wording): in every list the
card positions are contiguous, zero-based and match array order. -/
def PosInvariant (board : BoardUI) : Prop :=
  ∀ l ∈ board.lists, l.cards.map (fun c => c.position) =
    (List.range l.cards.length).map (fun i => (i : Int))

instance : DecidablePred PosInvariant := fun board =>
  inferInstanceAs (Decidable (∀ l ∈ board.lists, _))

end BoardStore

namespace Fixtures

open BoardStore EntityFactory

/-- Card fixtures for list A of the spec's move scenario (positions 0,1,2). -/
def cA1 : CardUI := { id := "a1", title := "Card A1", description := "", position := 0 }

def cA2 : CardUI := { id := "a2", title := "Card A2", description := "", position := 1 }

def cA3 : CardUI := { id := "a3", title := "Card A3", description := "", position := 2 }

/-- Card fixtures for list B of the spec's move scenario (positions 0,1). -/
def cB1 : CardUI := { id := "b1", title := "Card B1", description := "", position := 0 }

def cB2 : CardUI := { id := "b2", title := "Card B2", description := "", position := 1 }

/-- List A: three cards at positions `[0,1,2]`. -/
def listA : ListUI := { id := "A", title := "List A", cards := [cA1, cA2, cA3] }

/-- List B: two cards at positions `[0,1]`. -/
def listB : ListUI := { id := "B", title := "List B", cards := [cB1, cB2] }

/-- The board of the spec's move scenario. -/
def demoBoard : BoardUI := { id := "board-1", title := "My Board", lists := [listA, listB] }

/-- A list with two well-positioned cards. -/
def twoCardList : ListUI :=
  { id := "L1", title := "Todo",
    cards := [{ id := "k0", title := "first", description := "", position := 0 },
              { id := "k1", title := "second", description := "", position := 1 }] }

/-- A one-list board with two well-positioned cards. -/
def twoCardBoard : BoardUI :=
  { id := "board-1", title := "My Board", lists := [twoCardList] }

/-- A board with no lists at all. -/
def emptyBoard : BoardUI := { id := "board-1", title := "My Board", lists := [] }

/-- A concrete gateway failure. -/
def gerr : GatewayError := { message := "boom" }

/-- A concrete `POST /api/lists` success response. -/
def aListResp : ListResp := { id := "list-9", title := "New List" }

/-- A concrete `POST /api/cards` success response. -/
def aCardResp : CardResp :=
  { id := some "card-9", title := some "Task", description := some "", position := 7 }

/-- A source list for the clone scenario. -/
def srcList : ListE :=
  { id := "L1", title := "Todo", position := 0
    cards := [{ id := "c1", title := "one", description := "", position := 0, listId := "L1",
                createdAt := some 0, updatedAt := some 0 },
              { id := "c2", title := "two", description := "d", position := 1, listId := "L1",
                createdAt := some 0, updatedAt := some 0 }]
    createdAt := some 0, updatedAt := some 0 }

/-- The spec's remote-normalization example record. -/
def exApiCard : ApiCard :=
  { id := "c1", title := some "x", list_id := "L1", created_at := "2024-01-01T00:00:00Z" }

/-- A card whose id came from an earlier draw of the id supply. -/
def genCard : Card :=
  { id := generateId "card" 0, title := "task", description := "", position := 0,
    listId := "L", createdAt := some 0, updatedAt := some 0 }

/-- A list whose id came from an earlier draw of the id supply. -/
def genList : ListE :=
  { id := generateId "list" 1, title := "Todo", position := 0, cards := [genCard],
    createdAt := some 0, updatedAt := some 0 }

end Fixtures

open BoardStore EntityFactory Fixtures

/-- C1 (counterexample): in the spec's move scenario — list A holds cards at
positions `[0,1,2]`, list B holds two cards, `moveCard("A","B",0,1)` — the
claim says A's local position fields end as `[0,1]` and B's as `[0,1,2]`;
the code leaves the positions `[1,2]` and `[0,0,1]` because the renumbering
is only sent to the gateway, never written back to the local card objects. -/
theorem C1_counterexample :
    ((moveCard demoBoard "A" "B" 0 (some 1)).board.lists.map
        (fun l => l.cards.map (fun c => c.position)) = [[1, 2], [0, 0, 1]]) ∧
    ¬ ((moveCard demoBoard "A" "B" 0 (some 1)).board.lists.map
        (fun l => l.cards.map (fun c => c.position)) = [[0, 1], [0, 1, 2]]) := by
  decide

/-- C1 (amended): after `moveCard("A","B",0,1)` on the scenario board, list A
holds the two cards `a2, a3` and list B holds three cards with the moved card
`a1` at index 1; the local position fields keep their pre-move values
(`[1,2]` and `[0,0,1]`) and the contiguous zero-based positions exist only in
the PUT requests the operation issues — one per card of each affected list,
the moved card's PUT carrying `list_id = "B"`. -/
theorem C1_move_local_state :
    ((moveCard demoBoard "A" "B" 0 (some 1)).board.lists.map
        (fun l => (l.id, l.cards.map (fun c => c.id))) =
      [("A", ["a2", "a3"]), ("B", ["b1", "a1", "b2"])]) ∧
    ((moveCard demoBoard "A" "B" 0 (some 1)).board.lists.map
        (fun l => l.cards.map (fun c => c.position)) = [[1, 2], [0, 0, 1]]) ∧
    ((moveCard demoBoard "A" "B" 0 (some 1)).calls =
      [.putCard "a2" "A" 0, .putCard "a3" "A" 1,
       .putCard "b1" "B" 0, .putCard "a1" "B" 1, .putCard "b2" "B" 2]) := by
  decide

/-- C2 (counterexample): the position invariant `cards[i].position == i` is
not maintained by the store: a board satisfying it stops satisfying it after
a successful `removeCard` of the first card (the surviving card keeps
position 1 at index 0); nothing in the store renumbers local positions. -/
theorem C2_counterexample :
    PosInvariant twoCardBoard ∧
    ¬ PosInvariant (removeCard twoCardBoard "L1" "k0" (Except.ok ())).board := by
  decide

/-- C3 (counterexample): `addList` is not optimistic: in its execution trace
the local append happens strictly after the `$fetch` create call has been
issued and has settled, refuting both "visible before the persistence call
resolves" and "the persistence call is issued only after the local append". -/
theorem C3_counterexample :
    (addList emptyBoard "New" (Except.ok aListResp)).events =
      [StoreEvent.requestIssued, StoreEvent.requestSettled, StoreEvent.localMutation] ∧
    ¬ ((addList emptyBoard "New" (Except.ok aListResp)).events.indexOf StoreEvent.localMutation <
        (addList emptyBoard "New" (Except.ok aListResp)).events.indexOf StoreEvent.requestSettled) ∧
    ¬ ((addList emptyBoard "New" (Except.ok aListResp)).events.indexOf StoreEvent.localMutation <
        (addList emptyBoard "New" (Except.ok aListResp)).events.indexOf StoreEvent.requestIssued) := by
  decide

/-- C4 (counterexample): `updateCardTitle` stores the value verbatim, so a
title updated through the store can keep leading/trailing whitespace,
refuting "no entity's title field carries leading or trailing whitespace
after every operation that stores or mutates a title". -/
theorem C4_counterexample :
    ((updateCardTitle twoCardBoard "k0" " Task ").lists.map
        (fun l => l.cards.map (fun c => c.title)) = [[" Task ", "second"]]) ∧
    ¬ (∀ l ∈ (updateCardTitle twoCardBoard "k0" " Task ").lists, ∀ c ∈ l.cards,
        jsTrim c.title = c.title) := by
  decide

/-- C5 (counterexample): `cloneList` does not inherit the unset title field:
with no overrides the clone's title is the source title with the suffix
`" (副本)"` appended, not the source title. -/
theorem C5_counterexample :
    (cloneList srcList {} 5 42).title = "Todo (副本)" ∧
    ¬ (cloneList srcList {} 5 42).title = srcList.title := by
  decide

/-- C8 (counterexample): when the gateway delete of a card fails,
`removeCard` catches and logs the error instead of re-throwing it — the
caller sees a normal completion (local state is indeed unchanged). -/
theorem C8_counterexample :
    (removeCard twoCardBoard "L1" "k1" (Except.error gerr)).thrown = none ∧
    (removeCard twoCardBoard "L1" "k1" (Except.error gerr)).board = twoCardBoard ∧
    ¬ (removeCard twoCardBoard "L1" "k1" (Except.error gerr)).thrown = some gerr := by
  decide

lemma jsFalsyS_false_iff (o : Option String) : jsFalsyS o = false ↔ ∃ s, o = some s ∧ s ≠ "" := by
  cases o with
  | none => simp [jsFalsyS]
  | some s => simp [jsFalsyS]

lemma jsFalsyS_trim_false_iff (o : Option String) :
    jsFalsyS (o.map jsTrim) = false ↔ ∃ t, o = some t ∧ jsTrim t ≠ "" := by
  cases o with
  | none => simp [jsFalsyS]
  | some t => simp [jsFalsyS]

lemma jsPosBad_false_iff (o : Option Int) : jsPosBad o = false ↔ ∃ p, o = some p ∧ 0 ≤ p := by
  cases o with
  | none => simp [jsPosBad]
  | some p =>
      simp only [jsPosBad, decide_eq_false_iff_not, not_lt, Option.some.injEq]
      constructor
      · exact fun h => ⟨p, rfl, h⟩
      · rintro ⟨q, rfl, hq⟩
        exact hq

/-- C6: `validateCard`/`validateList` report every violated constraint (each
message is present exactly when its constraint fails) and return `[]` iff the
entity is valid; on `{title:"", listId:null, position:-1}` the result is
exactly the three violations in source order, and on
`{title:"ok", listId:"L1", position:0}` it is empty. -/
theorem C6_validation_complete :
    (∀ c : PartialCard, validateCard c = [] ↔
      ((∃ t, c.title = some t ∧ jsTrim t ≠ "") ∧
       (∃ s, c.listId = some s ∧ s ≠ "") ∧
       (∃ p, c.position = some p ∧ 0 ≤ p))) ∧
    (∀ c : PartialCard, "卡片標題不能為空" ∈ validateCard c ↔
      ¬ ∃ t, c.title = some t ∧ jsTrim t ≠ "") ∧
    (∀ c : PartialCard, "卡片必須屬於一個列表" ∈ validateCard c ↔
      ¬ ∃ s, c.listId = some s ∧ s ≠ "") ∧
    (∀ c : PartialCard, "卡片位置必須是非負數" ∈ validateCard c ↔
      ¬ ∃ p, c.position = some p ∧ 0 ≤ p) ∧
    (∀ l : PartialList, validateList l = [] ↔
      ((∃ t, l.title = some t ∧ jsTrim t ≠ "") ∧ (∃ p, l.position = some p ∧ 0 ≤ p))) ∧
    validateCard { title := some "", listId := none, position := some (-1) } =
      ["卡片標題不能為空", "卡片必須屬於一個列表", "卡片位置必須是非負數"] ∧
    validateCard { title := some "ok", listId := some "L1", position := some 0 } = [] := by
  refine ⟨?_, ?_, ?_, ?_, ?_, by decide, by decide⟩
  all_goals
    intro c
  · rw [← jsFalsyS_trim_false_iff, ← jsFalsyS_false_iff, ← jsPosBad_false_iff]
    cases hT : jsFalsyS (c.title.map jsTrim) <;>
      cases hL : jsFalsyS c.listId <;>
        cases hP : jsPosBad c.position <;>
          simp [validateCard, hT, hL, hP]
  · rw [← jsFalsyS_trim_false_iff]
    cases hT : jsFalsyS (c.title.map jsTrim) <;>
      simp [validateCard, hT]
  · rw [← jsFalsyS_false_iff]
    cases hL : jsFalsyS c.listId <;>
      simp [validateCard, hL]
  · rw [← jsPosBad_false_iff]
    cases hP : jsPosBad c.position <;>
      simp [validateCard, hP]
  · rw [← jsFalsyS_trim_false_iff, ← jsPosBad_false_iff]
    cases hT : jsFalsyS (c.title.map jsTrim) <;>
      cases hP : jsPosBad c.position <;>
        simp [validateList, hT, hP]

/-- C7: `createCardFromApi`/`createListFromApi` map `list_id` into `listId`,
parse timestamp strings with `new Date`, default `updatedAt` to `createdAt`
when `updated_at` is absent, default missing text/numeric fields as in
creation, and lists normalize their nested cards recursively; on the spec's
example record the result has `listId = "L1"` and both timestamps equal to
the valid instant 2024-01-01T00:00:00Z (epoch 1704067200000 ms). -/
theorem C7_fromRemote_normalization :
    (∀ a : ApiCard,
      (createCardFromApi a).listId = a.list_id ∧
      (createCardFromApi a).createdAt = parseDate a.created_at ∧
      (a.updated_at = none → (createCardFromApi a).updatedAt = (createCardFromApi a).createdAt) ∧
      (a.title = none → (createCardFromApi a).title = "") ∧
      (a.description = none → (createCardFromApi a).description = "") ∧
      (a.position = none → (createCardFromApi a).position = 0)) ∧
    (∀ al : ApiList, (createListFromApi al).cards = (al.cards.getD []).map createCardFromApi) ∧
    (createCardFromApi exApiCard).listId = "L1" ∧
    (createCardFromApi exApiCard).createdAt = some 1704067200000 ∧
    (createCardFromApi exApiCard).updatedAt = some 1704067200000 ∧
    parseDate "2024-01-01T00:00:00Z" = some 1704067200000 := by
  refine ⟨fun a => ⟨rfl, rfl, ?_, ?_, ?_, ?_⟩, fun al => rfl, by decide, by decide, by decide,
    by decide⟩ <;>
  · intro h
    simp [createCardFromApi, h, jsOrS, jsOrN]

/-- C7 (witness): the implications of `C7_fromRemote_normalization`
discharged on the spec's example record. -/
theorem C7_fromRemote_normalization_witness :
    (createCardFromApi exApiCard).updatedAt = (createCardFromApi exApiCard).createdAt ∧
    (createCardFromApi exApiCard).description = "" ∧
    (createCardFromApi exApiCard).position = 0 :=
  ⟨((C7_fromRemote_normalization.1 exApiCard).2.2.1) rfl,
   ((C7_fromRemote_normalization.1 exApiCard).2.2.2.2.1) rfl,
   ((C7_fromRemote_normalization.1 exApiCard).2.2.2.2.2) rfl⟩

/-- C9 (counterexample): `removeCard` referencing a card id absent from local
state still issues the gateway delete for that id (the claim says no gateway
call is made for an absent entity), and logs no warning. -/
theorem C9_counterexample :
    (removeCard emptyBoard "L1" "nope" (Except.ok ())).calls = [GatewayCall.deleteCard "nope"] ∧
    (removeCard emptyBoard "L1" "nope" (Except.ok ())).warned = false ∧
    ¬ (removeCard emptyBoard "L1" "nope" (Except.ok ())).calls = [] := by
  decide


lemma updateFirstCard_eq_none {cardId : String} {upd : CardUI → CardUI}
    {cards : List CardUI} :
    updateFirstCard cardId upd cards = none ↔ ∀ c ∈ cards, c.id ≠ cardId := by
  induction cards with
  | nil => simp [updateFirstCard]
  | cons c rest ih =>
      by_cases h : c.id = cardId
      · simp [updateFirstCard, h]
      · simp [updateFirstCard, h, ih]

lemma updateFirstCard_found {cardId : String} {cards : List CardUI}
    (h : ∃ c ∈ cards, c.id = cardId) :
    ∃ pre c post, cards = pre ++ c :: post ∧ (∀ x ∈ pre, x.id ≠ cardId) ∧ c.id = cardId ∧
      ∀ upd : CardUI → CardUI, updateFirstCard cardId upd cards = some (pre ++ upd c :: post) := by
  induction cards with
  | nil => simp at h
  | cons a rest ih =>
      by_cases ha : a.id = cardId
      · exact ⟨[], a, rest, rfl, by simp, ha, fun upd => by simp [updateFirstCard, ha]⟩
      · obtain ⟨c, hc, hcid⟩ := h
        rcases List.mem_cons.mp hc with rfl | hmem
        · exact absurd hcid ha
        · obtain ⟨pre, c1, post, hsplit, hpre, hcid1, heq⟩ := ih ⟨c, hmem, hcid⟩
          refine ⟨a :: pre, c1, post, by simp [hsplit], ?_, hcid1, fun upd => ?_⟩
          · intro x hx
            rcases List.mem_cons.mp hx with rfl | hx
            · exact ha
            · exact hpre x hx
          · simp [updateFirstCard, ha, heq upd]

lemma updateBoardLists_eq_self {cardId : String} {upd : CardUI → CardUI}
    {lists : List ListUI} (h : ∀ l ∈ lists, ∀ c ∈ l.cards, c.id ≠ cardId) :
    updateBoardLists cardId upd lists = lists := by
  induction lists with
  | nil => rfl
  | cons l rest ih =>
      have hl : updateFirstCard cardId upd l.cards = none :=
        updateFirstCard_eq_none.mpr (h l (List.mem_cons_self l rest))
      simp [updateBoardLists, hl, ih (fun x hx => h x (List.mem_cons_of_mem l hx))]

lemma updateBoardLists_found {cardId : String} {lists : List ListUI}
    (h : ∃ l ∈ lists, ∃ c ∈ l.cards, c.id = cardId) :
    ∃ preL l postL pre c post,
      lists = preL ++ l :: postL ∧
      (∀ x ∈ preL, ∀ cc ∈ x.cards, cc.id ≠ cardId) ∧
      l.cards = pre ++ c :: post ∧
      (∀ x ∈ pre, x.id ≠ cardId) ∧ c.id = cardId ∧
      ∀ upd : CardUI → CardUI, updateBoardLists cardId upd lists =
        preL ++ { l with cards := pre ++ upd c :: post } :: postL := by
  induction lists with
  | nil => simp at h
  | cons a rest ih =>
      by_cases hhead : ∃ c ∈ a.cards, c.id = cardId
      · obtain ⟨pre, c, post, hsplit, hpre, hcid, hupd⟩ := updateFirstCard_found hhead
        refine ⟨[], a, rest, pre, c, post, rfl, by simp, hsplit, hpre, hcid, fun upd => ?_⟩
        simp [updateBoardLists, hupd upd]
      · obtain ⟨l, hl, hc⟩ := h
        rcases List.mem_cons.mp hl with rfl | hmem
        · exact absurd hc hhead
        · obtain ⟨preL, l1, postL, pre, c, post, hs, hpreL, hcards, hpre, hcid, hupd⟩ :=
            ih ⟨l, hmem, hc⟩
          have hnone : ∀ upd : CardUI → CardUI, updateFirstCard cardId upd a.cards = none :=
            fun upd => updateFirstCard_eq_none.mpr (fun cc hcc he => hhead ⟨cc, hcc, he⟩)
          refine ⟨a :: preL, l1, postL, pre, c, post, by simp [hs], ?_, hcards, hpre, hcid,
            fun upd => ?_⟩
          · intro x hx
            rcases List.mem_cons.mp hx with rfl | hx
            · exact fun cc hcc he => hhead ⟨cc, hcc, he⟩
            · exact hpreL x hx
          · simp [updateBoardLists, hnone upd, hupd upd]

/-- C10: `updateCardTitle`/`updateCardDescription` modify at most one card —
the first card carrying the id in list-then-card iteration order — and only
its named field, storing the value verbatim; every other list and card, and
every other field of the matched card, are unchanged, and when no card
carries the id the whole board is unchanged. -/
theorem C10_update_modifies_first_only (b : BoardUI) (cid v : String) :
    ((∀ l ∈ b.lists, ∀ c ∈ l.cards, c.id ≠ cid) →
        updateCardTitle b cid v = b ∧ updateCardDescription b cid v = b) ∧
    ((∃ l ∈ b.lists, ∃ c ∈ l.cards, c.id = cid) →
        ∃ preL l postL pre c post,
          b.lists = preL ++ l :: postL ∧
          (∀ x ∈ preL, ∀ cc ∈ x.cards, cc.id ≠ cid) ∧
          l.cards = pre ++ c :: post ∧
          (∀ x ∈ pre, x.id ≠ cid) ∧ c.id = cid ∧
          updateCardTitle b cid v =
            { b with lists :=
                preL ++ { l with cards := pre ++ { c with title := v } :: post } :: postL } ∧
          updateCardDescription b cid v =
            { b with lists :=
                preL ++ { l with cards := pre ++ { c with description := v } :: post } :: postL }) := by
  constructor
  · intro h
    constructor <;>
      simp [updateCardTitle, updateCardDescription, updateBoardLists_eq_self h]
  · intro h
    obtain ⟨preL, l, postL, pre, c, post, hs, hpreL, hcards, hpre, hcid, hupd⟩ :=
      updateBoardLists_found h
    exact ⟨preL, l, postL, pre, c, post, hs, hpreL, hcards, hpre, hcid,
      congrArg (fun ls => { b with lists := ls }) (hupd (fun card => { card with title := v })),
      congrArg (fun ls => { b with lists := ls }) (hupd (fun card => { card with description := v }))⟩

/-- C10 (witness): `C10_update_modifies_first_only` applied to a concrete
board, both for an id present (k0) and an id absent (zzz). -/
theorem C10_update_modifies_first_only_witness :
    (updateCardTitle twoCardBoard "zzz" "w" = twoCardBoard ∧
     updateCardDescription twoCardBoard "zzz" "w" = twoCardBoard) ∧
    ∃ preL l postL pre c post,
      twoCardBoard.lists = preL ++ l :: postL ∧
      (∀ x ∈ preL, ∀ cc ∈ x.cards, cc.id ≠ "k0") ∧
      l.cards = pre ++ c :: post ∧
      (∀ x ∈ pre, x.id ≠ "k0") ∧ c.id = "k0" ∧
      updateCardTitle twoCardBoard "k0" "w" =
        { twoCardBoard with lists :=
            preL ++ { l with cards := pre ++ { c with title := "w" } :: post } :: postL } ∧
      updateCardDescription twoCardBoard "k0" "w" =
        { twoCardBoard with lists :=
            preL ++ { l with cards := pre ++ { c with description := "w" } :: post } :: postL } :=
  ⟨(C10_update_modifies_first_only twoCardBoard "zzz" "w").1 (by decide),
   (C10_update_modifies_first_only twoCardBoard "k0" "w").2 (by decide)⟩

lemma dropWhile_dropWhile {α : Type} (p : α → Bool) (l : List α) :
    List.dropWhile p (List.dropWhile p l) = List.dropWhile p l := by
  induction l with
  | nil => rfl
  | cons a l ih =>
      by_cases h : p a
      · simp [List.dropWhile_cons, h, ih]
      · simp [List.dropWhile_cons, h]

lemma dropWhile_eq_self_of_prefix {α : Type} {p : α → Bool} :
    ∀ {l m : List α}, l <+: m → List.dropWhile p m = m → List.dropWhile p l = l := by
  intro l m hpre hm
  cases l with
  | nil => rfl
  | cons a l2 =>
      obtain ⟨t, ht⟩ := hpre
      by_cases hpa : p a
      · exfalso
        rw [← ht, List.cons_append, List.dropWhile_cons, if_pos hpa] at hm
        have hlen := congrArg List.length hm
        have hle := (List.dropWhile_sublist (l := l2 ++ t) p).length_le
        rw [List.length_append] at hle
        rw [List.length_cons, List.length_append] at hlen
        omega
      · simp [List.dropWhile_cons, hpa]

lemma jsTrim_no_edge_whitespace (s : String) :
    (jsTrim s).data.dropWhile Char.isWhitespace = (jsTrim s).data ∧
    (jsTrim s).data.reverse.dropWhile Char.isWhitespace = (jsTrim s).data.reverse := by
  constructor
  · have hA : List.dropWhile Char.isWhitespace (s.data.dropWhile Char.isWhitespace) =
        s.data.dropWhile Char.isWhitespace := dropWhile_dropWhile _ _
    refine dropWhile_eq_self_of_prefix ?_ hA
    obtain ⟨t, ht⟩ :=
      List.dropWhile_suffix (l := (s.data.dropWhile Char.isWhitespace).reverse)
        (p := Char.isWhitespace)
    refine ⟨t.reverse, ?_⟩
    have := congrArg List.reverse ht
    simpa [jsTrim] using this
  · simp only [jsTrim, List.reverse_reverse]
    exact dropWhile_dropWhile _ _

/-- C4 (amended): titles built by the EntityFactory creators are trimmed
(`jsTrim` output carries no leading or trailing whitespace, and the spec's
example `createCard({title:" Task ", listId:"L1"})` yields `"Task"`), but
`updateCardTitle` stores its value verbatim: after it, every card title in
the board is either an original title or exactly the supplied value. -/
theorem C4_trim_only_on_create (p : CreateCardParams) (q : CreateListParams)
    (r : CreateBoardParams) (n : Nat) (now : Int) (b : BoardUI) (cid v : String) :
    (EntityFactory.createCard p n now).title = jsTrim p.title ∧
    (EntityFactory.createList q n now).title = jsTrim q.title ∧
    (EntityFactory.createBoard r n now).title = jsTrim r.title ∧
    (EntityFactory.createCard { title := " Task ", listId := "L1" } n now).title = "Task" ∧
    (∀ s : String, (jsTrim s).data.dropWhile Char.isWhitespace = (jsTrim s).data ∧
        (jsTrim s).data.reverse.dropWhile Char.isWhitespace = (jsTrim s).data.reverse) ∧
    (∀ l2 ∈ (updateCardTitle b cid v).lists, ∀ c2 ∈ l2.cards,
        c2.title = v ∨ ∃ l1 ∈ b.lists, ∃ c1 ∈ l1.cards, c2.title = c1.title) := by
  refine ⟨rfl, rfl, rfl, by show jsTrim " Task " = "Task"; decide,
    jsTrim_no_edge_whitespace, ?_⟩
  by_cases hex : ∃ l ∈ b.lists, ∃ c ∈ l.cards, c.id = cid
  · obtain ⟨preL, l, postL, pre, c, post, hs, hpreL, hcards, hpre, hcid, hupd⟩ :=
      updateBoardLists_found hex
    intro l2 hl2 c2 hc2
    rw [updateCardTitle] at hl2
    rw [hupd (fun card => { card with title := v })] at hl2
    simp only [List.mem_append, List.mem_cons] at hl2
    rcases hl2 with hl2 | hl2 | hl2
    · exact Or.inr ⟨l2, hs ▸ List.mem_append_left _ hl2, c2, hc2, rfl⟩
    · subst hl2
      simp only [List.mem_append, List.mem_cons] at hc2
      have hlmem : l ∈ b.lists := hs ▸ List.mem_append_right _ (List.mem_cons_self _ _)
      rcases hc2 with hc2 | hc2 | hc2
      · exact Or.inr ⟨l, hlmem, c2, hcards ▸ List.mem_append_left _ hc2, rfl⟩
      · subst hc2
        exact Or.inl rfl
      · exact Or.inr ⟨l, hlmem, c2,
          hcards ▸ List.mem_append_right _ (List.mem_cons_of_mem _ hc2), rfl⟩
    · exact Or.inr ⟨l2, hs ▸ List.mem_append_right _ (List.mem_cons_of_mem _ hl2), c2, hc2, rfl⟩
  · have hall : ∀ l ∈ b.lists, ∀ c ∈ l.cards, c.id ≠ cid := by
      intro l hl c hc he
      exact hex ⟨l, hl, c, hc, he⟩
    intro l2 hl2 c2 hc2
    rw [updateCardTitle, updateBoardLists_eq_self hall] at hl2
    exact Or.inr ⟨l2, hl2, c2, hc2, rfl⟩

/-- C4 (witness): the trim facts of `C4_trim_only_on_create` at a concrete
input, together with the concrete trimmed value. -/
theorem C4_trim_only_on_create_witness :
    (EntityFactory.createCard { title := " Task ", listId := "L1" } 0 0).title = "Task" ∧
    jsTrim " Task " = "Task" :=
  ⟨(C4_trim_only_on_create { title := " Task ", listId := "L1" } { title := "t" }
      { title := "t" } 0 0 emptyBoard "c" "v").2.2.2.1, by decide⟩

/-- C3 (amended): `addList`/`addCard` are persist-first, not optimistic: the
gateway create call is issued and settles before any local mutation; on
success `addList` appends `{...response, cards: []}` (and `addCard` appends
to the first matching list), on failure — and, for `addCard`, when the list
id is unknown locally — the board is left unchanged, and the `EntityFactory`
draft machinery is never involved. -/
theorem C3_persist_before_append (b : BoardUI) (t lid : String) (r : ListResp)
    (cr : CardResp) (e e2 : GatewayError) :
    (addList b t (Except.ok r)).events =
      [StoreEvent.requestIssued, StoreEvent.requestSettled, StoreEvent.localMutation] ∧
    (addList b t (Except.ok r)).board.lists =
      b.lists ++ [{ id := r.id, title := r.title, cards := [] }] ∧
    (addList b t (Except.ok r)).calls = [GatewayCall.createList t] ∧
    (addList b t (Except.error e)).events = [StoreEvent.requestIssued, StoreEvent.requestSettled] ∧
    (addList b t (Except.error e)).board = b ∧
    (b.lists.any (fun l => l.id == lid) = true →
      (addCard b lid t (Except.ok cr)).events =
        [StoreEvent.requestIssued, StoreEvent.requestSettled, StoreEvent.localMutation]) ∧
    (b.lists.any (fun l => l.id == lid) = false →
      (addCard b lid t (Except.ok cr)).board = b) ∧
    (addCard b lid t (Except.error e2)).board = b ∧
    (addCard b lid t (Except.error e2)).events =
      [StoreEvent.requestIssued, StoreEvent.requestSettled] := by
  refine ⟨rfl, rfl, rfl, rfl, rfl, ?_, ?_, rfl, rfl⟩ <;>
  · intro h
    simp [addCard, h]

/-- C3 (witness): `C3_persist_before_append` at a concrete board, with the
found and not-found hypotheses discharged. -/
theorem C3_persist_before_append_witness :
    (addCard twoCardBoard "L1" "x" (Except.ok aCardResp)).events =
      [StoreEvent.requestIssued, StoreEvent.requestSettled, StoreEvent.localMutation] ∧
    (addCard twoCardBoard "nope" "x" (Except.ok aCardResp)).board = twoCardBoard :=
  ⟨(C3_persist_before_append twoCardBoard "x" "L1" aListResp aCardResp gerr gerr).2.2.2.2.2.1
      (by decide),
   (C3_persist_before_append twoCardBoard "x" "nope" aListResp aCardResp gerr gerr).2.2.2.2.2.2.1
      (by decide)⟩

lemma find?_findIdx_of_findIdx? {α : Type} {p : α → Bool} :
    ∀ {xs : List α} {i : Nat}, xs.findIdx? p = some i →
      ∃ x, xs.find? p = some x ∧ xs.findIdx p = i := by
  intro xs
  induction xs with
  | nil => intro i h; simp [List.findIdx?_nil] at h
  | cons a rest ih =>
      intro i h
      rw [List.findIdx?_cons] at h
      by_cases hpa : p a
      · rw [if_pos hpa] at h
        obtain rfl : 0 = i := Option.some.inj h
        exact ⟨a, by simp [List.find?_cons, hpa], by simp [List.findIdx_cons, hpa]⟩
      · rw [if_neg hpa, List.findIdx?_succ] at h
        cases hr : rest.findIdx? p with
        | none => rw [hr] at h; simp at h
        | some k =>
            rw [hr] at h
            simp only [Option.map_some', Option.some.injEq] at h
            obtain ⟨x, hf, hidx⟩ := ih hr
            refine ⟨x, ?_, ?_⟩
            · simp [List.find?_cons, hpa, hf]
            · simp [List.findIdx_cons, hpa, hidx, h]

/-- C8 (amended): `removeList` locates the list locally, and on gateway
failure re-throws with local state untouched, while on success it splices the
list (and thereby all its cards) out; `removeCard`, by contrast, swallows a
gateway failure (nothing is re-thrown, the caller sees normal completion)
with local state untouched, and always issues the delete call. -/
theorem C8_remove_error_paths (b : BoardUI) (listId cardId : String)
    (e : GatewayError) (i : Nat)
    (h : b.lists.findIdx? (fun l => l.id == listId) = some i) :
    (removeList b listId (Except.error e)).thrown = some e ∧
    (removeList b listId (Except.error e)).board = b ∧
    (removeList b listId (Except.error e)).calls = [GatewayCall.deleteList listId] ∧
    (removeList b listId (Except.ok ())).board.lists = b.lists.eraseIdx i ∧
    (removeList b listId (Except.ok ())).thrown = none ∧
    (removeCard b listId cardId (Except.error e)).thrown = none ∧
    (removeCard b listId cardId (Except.error e)).board = b ∧
    (removeCard b listId cardId (Except.error e)).calls = [GatewayCall.deleteCard cardId] := by
  obtain ⟨x, hfind, hidx⟩ := find?_findIdx_of_findIdx? h
  refine ⟨?_, ?_, ?_, ?_, ?_, rfl, rfl, rfl⟩ <;>
    simp [removeList, hfind, hidx]

/-- C8 (witness): `C8_remove_error_paths` on a concrete board containing the
list, with the lookup hypothesis discharged. -/
theorem C8_remove_error_paths_witness :
    (removeList twoCardBoard "L1" (Except.error gerr)).thrown = some gerr ∧
    (removeList twoCardBoard "L1" (Except.ok ())).board.lists = twoCardBoard.lists.eraseIdx 0 ∧
    (removeCard twoCardBoard "L1" "k1" (Except.error gerr)).board = twoCardBoard := by
  have h := C8_remove_error_paths twoCardBoard "L1" "k1" gerr 0 (by decide)
  exact ⟨h.1, h.2.2.2.1, h.2.2.2.2.2.2.1⟩

lemma modifyFirstList_not_found {listId : String} {f : ListUI → ListUI} :
    ∀ {lists : List ListUI}, (∀ l ∈ lists, l.id ≠ listId) →
      modifyFirstList lists listId f = lists := by
  intro lists
  induction lists with
  | nil => intro _; rfl
  | cons a rest ih =>
      intro h
      have ha : (a.id == listId) = false := by
        simpa using h a (List.mem_cons_self a rest)
      simp [modifyFirstList, ha, ih (fun l hl => h l (List.mem_cons_of_mem a hl))]

lemma modifyFirstList_first {listId : String} {f : ListUI → ListUI} :
    ∀ {lists : List ListUI} {i : Nat} {l2 : ListUI},
      lists.findIdx? (fun l => l.id == listId) = some i → lists[i]? = some l2 →
      f l2 = l2 → modifyFirstList lists listId f = lists := by
  intro lists
  induction lists with
  | nil =>
      intro i l2 h _ _
      simp [List.findIdx?_nil] at h
  | cons a rest ih =>
      intro i l2 hfi hgl hfl
      rw [List.findIdx?_cons] at hfi
      by_cases ha : (a.id == listId) = true
      · rw [if_pos ha] at hfi
        obtain rfl : 0 = i := Option.some.inj hfi
        obtain rfl : a = l2 := by simpa using hgl
        simp [modifyFirstList, ha, hfl]
      · rw [if_neg ha, List.findIdx?_succ] at hfi
        cases hr : rest.findIdx? (fun l => l.id == listId) with
        | none =>
            rw [hr] at hfi
            simp at hfi
        | some k =>
            rw [hr] at hfi
            simp only [Option.map_some', Option.some.injEq] at hfi
            subst hfi
            have hgl2 : rest[k]? = some l2 := by simpa using hgl
            have hbool : (a.id == listId) = false := by simpa using ha
            simp [modifyFirstList, hbool, ih hr hgl2 hfl]

/-- C9 (amended): when an operation references an id absent from local state,
`removeList` warns, no-ops and calls no gateway; `moveCard` no-ops and calls
no gateway but logs no warning, whether the source list, the destination
list, or the card index is the unknown one; `removeCard`, however, always
issues the gateway delete for the card id, present locally or not, leaving
local state unchanged when the list or the card is absent. -/
theorem C9_absent_entity_paths (b : BoardUI) (listId toId cardId : String)
    (ci : Nat) (ni : Option Nat) (r : Except GatewayError Unit) :
    (b.lists.find? (fun l => l.id == listId) = none →
        (removeList b listId r).warned = true ∧ (removeList b listId r).board = b ∧
        (removeList b listId r).calls = [] ∧ (removeList b listId r).thrown = none) ∧
    (b.lists.findIdx? (fun l => l.id == listId) = none →
        (moveCard b listId toId ci ni).board = b ∧
        (moveCard b listId toId ci ni).calls = [] ∧
        (moveCard b listId toId ci ni).warned = false) ∧
    (b.lists.findIdx? (fun l => l.id == toId) = none →
        (moveCard b listId toId ci ni).board = b ∧
        (moveCard b listId toId ci ni).calls = [] ∧
        (moveCard b listId toId ci ni).warned = false) ∧
    (∀ i fromList, b.lists.findIdx? (fun l => l.id == listId) = some i →
        b.lists[i]? = some fromList → fromList.cards[ci]? = none →
        (moveCard b listId toId ci ni).board = b ∧
        (moveCard b listId toId ci ni).calls = [] ∧
        (moveCard b listId toId ci ni).warned = false) ∧
    ((∀ l ∈ b.lists, l.id ≠ listId) → (removeCard b listId cardId r).board = b) ∧
    (∀ i l2, b.lists.findIdx? (fun l => l.id == listId) = some i →
        b.lists[i]? = some l2 → (∀ c ∈ l2.cards, c.id ≠ cardId) →
        (removeCard b listId cardId r).board = b) ∧
    (removeCard b listId cardId r).calls = [GatewayCall.deleteCard cardId] := by
  refine ⟨fun h => ?_, fun h => ?_, fun h => ?_, fun i fromList hfi hgf hc => ?_,
    fun h => ?_, fun i l2 hfi hgl hnc => ?_, ?_⟩
  · refine ⟨?_, ?_, ?_, ?_⟩ <;> simp [removeList, h]
  · cases h2 : b.lists.findIdx? (fun l => l.id == toId) <;>
      exact ⟨by simp [moveCard, h, h2], by simp [moveCard, h, h2], by simp [moveCard, h, h2]⟩
  · cases h1 : b.lists.findIdx? (fun l => l.id == listId) <;>
      exact ⟨by simp [moveCard, h1, h], by simp [moveCard, h1, h], by simp [moveCard, h1, h]⟩
  · rcases hfj : b.lists.findIdx? (fun l => l.id == toId) with _ | j
    · exact ⟨by simp [moveCard, hfi, hfj], by simp [moveCard, hfi, hfj],
        by simp [moveCard, hfi, hfj]⟩
    · rcases hgt : b.lists[j]? with _ | toList
      · exact ⟨by simp [moveCard, hfi, hfj, hgf, hgt], by simp [moveCard, hfi, hfj, hgf, hgt],
          by simp [moveCard, hfi, hfj, hgf, hgt]⟩
      · exact ⟨by simp [moveCard, hfi, hfj, hgf, hgt, hc],
          by simp [moveCard, hfi, hfj, hgf, hgt, hc],
          by simp [moveCard, hfi, hfj, hgf, hgt, hc]⟩
  · cases r with
    | error e => rfl
    | ok u =>
        simp only [removeCard]
        rw [modifyFirstList_not_found h]
  · cases r with
    | error e => rfl
    | ok u =>
        have hfix : l2.cards.findIdx? (fun c => c.id == cardId) = none :=
          List.findIdx?_eq_none_iff.mpr (fun c hc => by simpa using hnc c hc)
        simp only [removeCard]
        rw [modifyFirstList_first hfi hgl (by simp [hfix])]
  · cases r <;> rfl

/-- C9 (witness): `C9_absent_entity_paths` with every hypothesis discharged
by evaluation: an unknown list for `removeList`, an unknown source list,
destination list and card index for `moveCard`, and an unknown list and an
unknown card for `removeCard`. -/
theorem C9_absent_entity_paths_witness :
    (removeList emptyBoard "L9" (Except.ok ())).warned = true ∧
    (moveCard emptyBoard "L9" "L9" 0 none).board = emptyBoard ∧
    (moveCard emptyBoard "L9" "L9" 0 none).calls = [] ∧
    (moveCard twoCardBoard "L1" "L9" 0 none).board = twoCardBoard ∧
    (moveCard twoCardBoard "L1" "L9" 0 none).calls = [] ∧
    (moveCard twoCardBoard "L1" "L1" 5 none).board = twoCardBoard ∧
    (moveCard twoCardBoard "L1" "L1" 5 none).calls = [] ∧
    (removeCard emptyBoard "L9" "nope" (Except.ok ())).board = emptyBoard ∧
    (removeCard twoCardBoard "L1" "nope" (Except.ok ())).board = twoCardBoard := by
  have h1 := C9_absent_entity_paths emptyBoard "L9" "L9" "nope" 0 none (Except.ok ())
  have h2 := C9_absent_entity_paths twoCardBoard "L1" "L9" "nope" 0 none (Except.ok ())
  have h3 := C9_absent_entity_paths twoCardBoard "L1" "L1" "nope" 5 none (Except.ok ())
  exact ⟨(h1.1 (by decide)).1, (h1.2.1 (by decide)).1, (h1.2.1 (by decide)).2.1,
    (h2.2.2.1 (by decide)).1, (h2.2.2.1 (by decide)).2.1,
    (h3.2.2.2.1 0 twoCardList (by decide) (by decide) (by decide)).1,
    (h3.2.2.2.1 0 twoCardList (by decide) (by decide) (by decide)).2.1,
    h1.2.2.2.2.1 (by decide),
    h3.2.2.2.2.2.1 0 twoCardList (by decide) (by decide) (by decide)⟩

lemma mem_jsSpliceInsert {c card : CardUI} {cards : List CardUI} {ni : Option Nat}
    (h : c ∈ jsSpliceInsert cards ni card) : c = card ∨ c ∈ cards := by
  cases ni with
  | none =>
      rcases List.mem_append.mp h with h | h
      · exact Or.inr h
      · exact Or.inl (by simpa using h)
  | some k =>
      rw [jsSpliceInsert] at h
      by_cases hk : cards.length ≤ k
      · rw [if_pos hk] at h
        rcases List.mem_append.mp h with h | h
        · exact Or.inr h
        · exact Or.inl (by simpa using h)
      · rw [if_neg hk] at h
        exact (List.mem_insertIdx (Nat.le_of_lt (Nat.lt_of_not_le hk))).mp h

lemma cardCalls_shape (l : ListUI) :
    (cardCalls l).map putPos = List.range l.cards.length ∧
    (cardCalls l).map putCardId = l.cards.map (fun c => c.id) ∧
    ∀ gc ∈ cardCalls l, putListId gc = l.id := by
  refine ⟨?_, ?_, ?_⟩
  · rw [cardCalls, List.mapIdx_eq_enum_map, List.map_map]
    have hfun : (putPos ∘ Function.uncurry fun (index : Nat) (c : CardUI) =>
        GatewayCall.putCard c.id l.id index) = Prod.fst := by
      funext x
      cases x
      rfl
    rw [hfun, List.enum_map_fst]
  · rw [cardCalls, List.mapIdx_eq_enum_map, List.map_map]
    have hfun : (putCardId ∘ Function.uncurry fun (index : Nat) (c : CardUI) =>
        GatewayCall.putCard c.id l.id index) = ((fun c : CardUI => c.id) ∘ Prod.snd) := by
      funext x
      cases x
      rfl
    rw [hfun, ← List.map_map, List.enum_map_snd]
  · intro gc hgc
    rw [cardCalls, List.mapIdx_eq_enum_map] at hgc
    obtain ⟨⟨i, c⟩, hmem, rfl⟩ := List.mem_map.mp hgc
    rfl

/-- C2 (amended): the store does not maintain the position invariant on local
state (see the counterexample): `moveCard` leaves every card object — its
position field included — exactly as some card object of the pre-move board;
the contiguous zero-based positions exist only in the gateway batch:
`cardCalls` names each affected list's cards in array order with positions
`0..n-1`, all addressed to that list's id, and a move emits the batch of one
affected list or the concatenation for source and destination. -/
theorem C2_positions_gateway_only (b : BoardUI) (fromId toId : String)
    (ci : Nat) (ni : Option Nat) :
    (∀ l2 ∈ (moveCard b fromId toId ci ni).board.lists, ∀ c ∈ l2.cards,
        ∃ l1 ∈ b.lists, c ∈ l1.cards) ∧
    (∀ l : ListUI, (cardCalls l).map putPos = List.range l.cards.length ∧
        (cardCalls l).map putCardId = l.cards.map (fun c => c.id) ∧
        ∀ gc ∈ cardCalls l, putListId gc = l.id) ∧
    ((moveCard b fromId toId ci ni).calls = [] ∨
     (∃ u ∈ (moveCard b fromId toId ci ni).board.lists,
        (moveCard b fromId toId ci ni).calls = cardCalls u) ∨
     (∃ u ∈ (moveCard b fromId toId ci ni).board.lists,
      ∃ w ∈ (moveCard b fromId toId ci ni).board.lists,
        (moveCard b fromId toId ci ni).calls = cardCalls u ++ cardCalls w)) := by
  refine ⟨?_, fun l => cardCalls_shape l, ?_⟩
  · intro l2 hl2 c hc
    rcases hfi : b.lists.findIdx? (fun l => l.id == fromId) with _ | i <;>
      rcases hfj : b.lists.findIdx? (fun l => l.id == toId) with _ | j
    · simp only [moveCard, hfi, hfj] at hl2
      exact ⟨l2, hl2, hc⟩
    · simp only [moveCard, hfi, hfj] at hl2
      exact ⟨l2, hl2, hc⟩
    · simp only [moveCard, hfi, hfj] at hl2
      exact ⟨l2, hl2, hc⟩
    · rcases hgf : b.lists[i]? with _ | fromList <;> rcases hgt : b.lists[j]? with _ | toList
      · simp only [moveCard, hfi, hfj, hgf, hgt] at hl2
        exact ⟨l2, hl2, hc⟩
      · simp only [moveCard, hfi, hfj, hgf, hgt] at hl2
        exact ⟨l2, hl2, hc⟩
      · simp only [moveCard, hfi, hfj, hgf, hgt] at hl2
        exact ⟨l2, hl2, hc⟩
      · have hfmem : fromList ∈ b.lists := by
          obtain ⟨hlt, heq⟩ := List.getElem?_eq_some.mp hgf
          exact heq ▸ List.getElem_mem hlt
        have htmem : toList ∈ b.lists := by
          obtain ⟨hlt, heq⟩ := List.getElem?_eq_some.mp hgt
          exact heq ▸ List.getElem_mem hlt
        rcases hcg : fromList.cards[ci]? with _ | card
        · simp only [moveCard, hfi, hfj, hgf, hgt, hcg] at hl2
          exact ⟨l2, hl2, hc⟩
        · have hcmem : card ∈ fromList.cards := by
            obtain ⟨hlt, heq⟩ := List.getElem?_eq_some.mp hcg
            exact heq ▸ List.getElem_mem hlt
          by_cases hij : i = j
          · simp only [moveCard, hfi, hfj, hgf, hgt, hcg, if_pos hij] at hl2
            rcases List.mem_or_eq_of_mem_set hl2 with hl2 | rfl
            · exact ⟨l2, hl2, hc⟩
            · rcases mem_jsSpliceInsert hc with rfl | hc
              · exact ⟨fromList, hfmem, hcmem⟩
              · exact ⟨fromList, hfmem,
                  (List.eraseIdx_sublist fromList.cards ci).mem hc⟩
          · simp only [moveCard, hfi, hfj, hgf, hgt, hcg, if_neg hij] at hl2
            rcases List.mem_or_eq_of_mem_set hl2 with hl2 | rfl
            · rcases List.mem_or_eq_of_mem_set hl2 with hl2 | rfl
              · exact ⟨l2, hl2, hc⟩
              · exact ⟨fromList, hfmem,
                  (List.eraseIdx_sublist fromList.cards ci).mem hc⟩
            · rcases mem_jsSpliceInsert hc with rfl | hc
              · exact ⟨fromList, hfmem, hcmem⟩
              · exact ⟨toList, htmem, hc⟩
  · rcases hfi : b.lists.findIdx? (fun l => l.id == fromId) with _ | i <;>
      rcases hfj : b.lists.findIdx? (fun l => l.id == toId) with _ | j
    · exact Or.inl (by simp only [moveCard, hfi, hfj])
    · exact Or.inl (by simp only [moveCard, hfi, hfj])
    · exact Or.inl (by simp only [moveCard, hfi, hfj])
    · rcases hgf : b.lists[i]? with _ | fromList <;> rcases hgt : b.lists[j]? with _ | toList
      · exact Or.inl (by simp only [moveCard, hfi, hfj, hgf, hgt])
      · exact Or.inl (by simp only [moveCard, hfi, hfj, hgf, hgt])
      · exact Or.inl (by simp only [moveCard, hfi, hfj, hgf, hgt])
      · have hilt : i < b.lists.length := (List.getElem?_eq_some.mp hgf).1
        have hjlt : j < b.lists.length := (List.getElem?_eq_some.mp hgt).1
        rcases hcg : fromList.cards[ci]? with _ | card
        · exact Or.inl (by simp only [moveCard, hfi, hfj, hgf, hgt, hcg])
        · by_cases hij : i = j
          · refine Or.inr (Or.inl ?_)
            simp only [moveCard, hfi, hfj, hgf, hgt, hcg, if_pos hij]
            exact ⟨_, List.mem_set b.lists i hilt _, rfl⟩
          · refine Or.inr (Or.inr ?_)
            simp only [moveCard, hfi, hfj, hgf, hgt, hcg, if_neg hij]
            refine ⟨_, ?_, _, ?_, rfl⟩
            · have hi2 : i < ((b.lists.set i { fromList with
                  cards := fromList.cards.eraseIdx ci }).set j
                    { toList with cards := jsSpliceInsert toList.cards ni card }).length := by
                simpa using hilt
              have hval : ((b.lists.set i { fromList with
                  cards := fromList.cards.eraseIdx ci }).set j
                    { toList with cards := jsSpliceInsert toList.cards ni card })[i] =
                  { fromList with cards := fromList.cards.eraseIdx ci } := by
                rw [List.getElem_set_ne (fun he => hij he.symm)]
                exact List.getElem_set_self (by simpa using hilt)
              have hm := List.getElem_mem hi2
              rwa [hval] at hm
            · have hj2 : j < ((b.lists.set i { fromList with
                  cards := fromList.cards.eraseIdx ci }).set j
                    { toList with cards := jsSpliceInsert toList.cards ni card }).length := by
                simpa using hjlt
              have hval : ((b.lists.set i { fromList with
                  cards := fromList.cards.eraseIdx ci }).set j
                    { toList with cards := jsSpliceInsert toList.cards ni card })[j] =
                  { toList with cards := jsSpliceInsert toList.cards ni card } :=
                List.getElem_set_self (by simpa using hjlt)
              have hm := List.getElem_mem hj2
              rwa [hval] at hm

/-- C2 (witness): a concrete consequence of `C2_positions_gateway_only`: the
moved card in the post-move board is an unchanged card object of the pre-move
board. -/
theorem C2_positions_gateway_only_witness :
    ∃ l1 ∈ demoBoard.lists, cA1 ∈ l1.cards :=
  (C2_positions_gateway_only demoBoard "A" "B" 0 (some 1)).1
    { id := "B", title := "List B", cards := [cB1, cA1, cB2] } (by decide) cA1 (by decide)

lemma digitChar_inj_lt : ∀ a < 10, ∀ b < 10, Nat.digitChar a = Nat.digitChar b → a = b := by
  decide

lemma map_digitChar_inj : ∀ (l1 l2 : List Nat), (∀ x ∈ l1, x < 10) → (∀ x ∈ l2, x < 10) →
    l1.map Nat.digitChar = l2.map Nat.digitChar → l1 = l2 := by
  intro l1
  induction l1 with
  | nil =>
      intro l2 _ _ h
      cases l2 with
      | nil => rfl
      | cons b l2 => simp at h
  | cons a l1 ih =>
      intro l2 h1 h2 h
      cases l2 with
      | nil => simp at h
      | cons b l2 =>
          simp only [List.map_cons, List.cons.injEq] at h
          have ha : a < 10 := h1 a (List.mem_cons_self a l1)
          have hb : b < 10 := h2 b (List.mem_cons_self b l2)
          have hab := digitChar_inj_lt a ha b hb h.1
          rw [hab, ih l2 (fun x hx => h1 x (List.mem_cons_of_mem _ hx))
            (fun x hx => h2 x (List.mem_cons_of_mem _ hx)) h.2]

lemma natDecimal_injective : Function.Injective natDecimal := by
  intro a b h
  have hd : (Nat.digits 10 a).reverse.map Nat.digitChar =
      (Nat.digits 10 b).reverse.map Nat.digitChar := by
    simpa [natDecimal] using congrArg String.data h
  have hrev := map_digitChar_inj _ _
    (fun x hx => Nat.digits_lt_base (by norm_num) (List.mem_reverse.mp hx))
    (fun x hx => Nat.digits_lt_base (by norm_num) (List.mem_reverse.mp hx)) hd
  exact Nat.digits.injective 10 (List.reverse_injective hrev)

lemma generateId_inj (pfx : String) {m n : Nat}
    (h : EntityFactory.generateId pfx m = EntityFactory.generateId pfx n) : m = n := by
  apply natDecimal_injective
  have hdata := congrArg String.data h
  simp only [EntityFactory.generateId, String.data_append, List.append_assoc] at hdata
  exact String.ext (List.append_cancel_left (List.append_cancel_left hdata))

lemma generateId_ne_empty (pfx : String) (n : Nat) : EntityFactory.generateId pfx n ≠ "" := by
  intro h
  have hlen := congrArg String.length h
  rw [EntityFactory.generateId, String.length_append, String.length_append] at hlen
  have h1 : ("_" : String).length = 1 := rfl
  have h0 : ("" : String).length = 0 := rfl
  omega

lemma cloneCards_length (cards : List Card) (nid : String) (now : Int) :
    ∀ n : Nat, (cloneCards cards nid n now).length = cards.length := by
  induction cards with
  | nil => intro n; rfl
  | cons c rest ih => intro n; simp [cloneCards, ih]

lemma cloneCards_get (cards : List Card) (nid : String) (now : Int) :
    ∀ (n k : Nat) (hk : k < (cloneCards cards nid n now).length) (hk2 : k < cards.length),
      (cloneCards cards nid n now).get ⟨k, hk⟩ =
        cloneCard (cards.get ⟨k, hk2⟩) { listId := some nid } (n + k) now := by
  induction cards with
  | nil =>
      intro n k hk hk2
      exact absurd hk2 (by simp)
  | cons c rest ih =>
      intro n k hk hk2
      cases k with
      | zero => rfl
      | succ k =>
          have hk4 : k < rest.length := by simpa using hk2
          have hk3 : k < (cloneCards rest nid (n + 1) now).length := by
            rw [cloneCards_length rest nid now (n + 1)]
            exact hk4
          have harith : n + (k + 1) = (n + 1) + k := by omega
          calc (cloneCards (c :: rest) nid n now).get ⟨k + 1, hk⟩
              = (cloneCards rest nid (n + 1) now).get ⟨k, hk3⟩ := by
                simp only [cloneCards, List.get_cons_succ]
            _ = cloneCard (rest.get ⟨k, hk4⟩) { listId := some nid } ((n + 1) + k) now :=
                ih (n + 1) k hk3 hk4
            _ = cloneCard ((c :: rest).get ⟨k + 1, hk2⟩) { listId := some nid }
                  (n + (k + 1)) now := by
                rw [harith, List.get_cons_succ]

/-- C5 (amended): `cloneCard`/`cloneList` always draw a fresh id from the
generator, so the clone's id differs from the source's whenever the source's
id came from a different (earlier) draw; fields not set in the overrides are
inherited, except that `cloneCard` re-trims the inherited title and
`cloneList`'s default title is the source title with the suffix `" (副本)"`;
cloning a list with N cards yields exactly N cloned cards, each one drawing
its own fresh id (distinct from its source card's id under the same
condition) and carrying `listId` equal to the new list's id. -/
theorem C5_clone_fresh_ids (c : Card) (l : ListE) (o : CardOverrides)
    (po : ListOverrides) (n m : Nat) (now : Int) :
    (cloneCard c o m now).id = EntityFactory.generateId "card" m ∧
    (∀ j, c.id = EntityFactory.generateId "card" j → j ≠ m →
        (cloneCard c o m now).id ≠ c.id) ∧
    (o.title = none → (cloneCard c o m now).title = jsTrim c.title) ∧
    (o.description = none → (cloneCard c o m now).description = c.description) ∧
    (o.position = none → (cloneCard c o m now).position = c.position) ∧
    (o.listId = none → (cloneCard c o m now).listId = c.listId) ∧
    (cloneList l po n now).id = EntityFactory.generateId "list" n ∧
    (∀ j, l.id = EntityFactory.generateId "list" j → j ≠ n →
        (cloneList l po n now).id ≠ l.id) ∧
    (po.title = none → (cloneList l po n now).title = jsTrim (l.title ++ " (副本)")) ∧
    (po.position = none → (cloneList l po n now).position = l.position) ∧
    (cloneList l po n now).cards.length = l.cards.length ∧
    (∀ k (hk : k < (cloneList l po n now).cards.length) (hk2 : k < l.cards.length),
        ((cloneList l po n now).cards.get ⟨k, hk⟩).listId = (cloneList l po n now).id ∧
        ((cloneList l po n now).cards.get ⟨k, hk⟩).id =
          EntityFactory.generateId "card" (n + 1 + k) ∧
        (∀ j, (l.cards.get ⟨k, hk2⟩).id = EntityFactory.generateId "card" j → j ≠ n + 1 + k →
          ((cloneList l po n now).cards.get ⟨k, hk⟩).id ≠ (l.cards.get ⟨k, hk2⟩).id)) := by
  refine ⟨rfl, ?_, ?_, ?_, ?_, ?_, rfl, ?_, ?_, ?_, ?_, ?_⟩
  · intro j hj hne heq
    rw [hj] at heq
    exact hne (generateId_inj "card" heq).symm
  · intro h
    simp [cloneCard, createCard, jsOrS, h]
  · intro h
    by_cases hd : c.description = "" <;>
      simp [cloneCard, createCard, jsOrS, h, hd]
  · intro h
    simp [cloneCard, createCard, h]
  · intro h
    by_cases hl : c.listId = "" <;>
      simp [cloneCard, createCard, jsOrS, h, hl]
  · intro j hj hne heq
    rw [hj] at heq
    exact hne (generateId_inj "list" heq).symm
  · intro h
    simp [cloneList, createList, jsOrS, h]
  · intro h
    simp [cloneList, createList, h]
  · exact cloneCards_length l.cards _ now (n + 1)
  · intro k hk hk2
    have hk3 : k < (cloneCards l.cards (EntityFactory.generateId "list" n) (n + 1) now).length :=
      hk
    have hget := cloneCards_get l.cards (EntityFactory.generateId "list" n) now (n + 1) k hk3 hk2
    refine ⟨?_, ?_, ?_⟩
    · show ((cloneCards l.cards (EntityFactory.generateId "list" n) (n + 1) now).get
        ⟨k, hk3⟩).listId = _
      rw [hget]
      simp [cloneCard, createCard, jsOrS, generateId_ne_empty "list" n, cloneList, createList]
    · show ((cloneCards l.cards (EntityFactory.generateId "list" n) (n + 1) now).get
        ⟨k, hk3⟩).id = _
      rw [hget]
      rfl
    · intro j hj hne
      show ((cloneCards l.cards (EntityFactory.generateId "list" n) (n + 1) now).get
        ⟨k, hk3⟩).id ≠ _
      rw [hget, hj]
      intro heq
      exact hne (generateId_inj "card" heq).symm

/-- C5 (witness): `C5_clone_fresh_ids` at concrete entities whose ids came
from earlier draws of the id supply: both clones change identity. -/
theorem C5_clone_fresh_ids_witness :
    (cloneCard genCard {} 5 0).id ≠ genCard.id ∧
    (cloneList genList {} 7 0).id ≠ genList.id :=
  ⟨(C5_clone_fresh_ids genCard genList {} {} 7 5 0).2.1 0 rfl (by decide),
   (C5_clone_fresh_ids genCard genList {} {} 7 5 0).2.2.2.2.2.2.2.1 1 rfl (by decide)⟩
